import Mathlib

/-!
# Verification of the exp-dumnati update-graph service

Shallow embedding of the graph builder (`src/graph.rs`), the policy
functions (`src/graph.rs`, `src/policy.rs`), the wariness derivation
(`src/main.rs`) and the `GetCachedGraph` handler (`src/scraper.rs`),
together with theorems settling the specification claims.

Modelling conventions:
* Rust `HashMap<String, String>` is modelled as an association list with
  last-insert-wins lookup (`mapGet` / `mapInsert`); only `get`/`insert`
  are used by the code, so any lookup-respecting model is adequate.
* Rust `u64` / `i64` are `Nat` / `Int`; the saturating and wrapping
  operations the code uses are modelled explicitly (`u64SatMul`,
  `u64AsI64`, `i64Wrap`, `i64SatSub`).
* Rust `f64` arithmetic is idealised as exact rational arithmetic (`ℚ`);
  string-to-float parsing is modelled on plain decimal literals (the only
  shape the metadata schema carries), exponents and inf/nan omitted.
* The clock read `chrono::Utc::now().timestamp()` inside
  `throttle_rollouts` is passed as an explicit `now : Int` parameter.
* A Rust panic (out-of-bounds index, failed `assert_eq!`) is modelled as
  `Option.none` or an explicit `panicked` outcome, distinct from the
  `Err` branch of a `Result`.
-/

/-- Metadata key `org.fedoraproject.coreos.scheme` (graph.rs line 6). -/
def SCHEME : String := "org.fedoraproject.coreos.scheme"

/-- Metadata key `org.fedoraproject.coreos.releases.age_index` (graph.rs line 7). -/
def AGE_INDEX : String := "org.fedoraproject.coreos.releases.age_index"

/-- Metadata key `org.fedoraproject.coreos.updates.deadend` (graph.rs line 8). -/
def DEADEND : String := "org.fedoraproject.coreos.updates.deadend"

/-- Metadata key `org.fedoraproject.coreos.updates.deadend_reason` (graph.rs line 9). -/
def DEADEND_REASON : String := "org.fedoraproject.coreos.updates.deadend_reason"

/-- Metadata key `org.fedoraproject.coreos.updates.start_epoch` (graph.rs line 10). -/
def START_EPOCH : String := "org.fedoraproject.coreos.updates.start_epoch"

/-- Metadata key `org.fedoraproject.coreos.updates.start_value` (graph.rs line 11). -/
def START_VALUE : String := "org.fedoraproject.coreos.updates.start_value"

/-- Metadata key `org.fedoraproject.coreos.updates.duration_minutes` (graph.rs line 12). -/
def DURATION : String := "org.fedoraproject.coreos.updates.duration_minutes"

/-- Association-list model of `HashMap<String,String>::get`. -/
def mapGet (m : List (String × String)) (k : String) : Option String :=
  (m.find? (fun p => p.1 == k)).map (fun p => p.2)

/-- Association-list model of `HashMap<String,String>::insert`
(replacing any previous binding of the key). -/
def mapInsert (m : List (String × String)) (k v : String) : List (String × String) :=
  (k, v) :: m.filter (fun p => p.1 ≠ k)

/-- A commit entry of the release index (scraper.rs `ReleaseCommit`). -/
structure ReleaseCommit where
  architecture : String
  checksum : String
deriving DecidableEq, Repr

/-- A release of the release index (scraper.rs `Release`). -/
structure Release where
  commits : List ReleaseCommit
  version : String
  metadata : String
deriving DecidableEq, Repr

/-- A barrier entry of the updates document (metadata.rs `UpdateBarrier`). -/
structure UpdateBarrier where
  version : String
  reason : String
deriving DecidableEq, Repr

/-- A dead-end entry of the updates document (metadata.rs `UpdateDeadend`). -/
structure UpdateDeadend where
  version : String
  reason : String
deriving DecidableEq, Repr

/-- A rollout entry of the updates document (metadata.rs `UpdateRollout`). -/
structure UpdateRollout where
  version : String
  start_epoch : String
  start_value : String
  duration_minutes : Option String
deriving DecidableEq, Repr

/-- The stream updates document (metadata.rs `Updates`). -/
structure Updates where
  barriers : List UpdateBarrier
  deadends : List UpdateDeadend
  rollouts : List UpdateRollout
deriving DecidableEq, Repr

/-- A graph node (graph.rs `CincinnatiPayload`). -/
structure CincinnatiPayload where
  version : String
  metadata : List (String × String)
  payload : String
deriving DecidableEq, Repr

/-- The update graph (graph.rs `Graph`); edge indices are `u64` modelled as `Nat`. -/
structure Graph where
  nodes : List CincinnatiPayload
  edges : List (Nat × Nat)
deriving DecidableEq, Repr

/-- `Graph::default` (graph.rs lines 27-34): empty nodes and edges. -/
def Graph.default : Graph := { nodes := [], edges := [] }

/-- `deadend_reason` (graph.rs lines 176-188): first dead-end entry matching
the release version; empty reasons become `"generic"`. -/
def deadend_reason (updates : Updates) (release : CincinnatiPayload) : Option String :=
  updates.deadends.findSome? (fun dead =>
    if dead.version ≠ release.version then none
    else if dead.reason = "" then some "generic"
    else some dead.reason)

/-- One iteration of the `inject_throttling_params` loop body
(graph.rs lines 191-210). -/
def injectRollout (release : CincinnatiPayload) (entry : UpdateRollout) : CincinnatiPayload :=
  if entry.version ≠ release.version then release
  else
    let m1 := mapInsert release.metadata START_EPOCH entry.start_epoch
    let m2 := mapInsert m1 START_VALUE entry.start_value
    let m3 := match entry.duration_minutes with
      | some minutes => mapInsert m2 DURATION minutes
      | none => m2
    { release with metadata := m3 }

/-- `inject_throttling_params` (graph.rs lines 190-211): fold the rollout
entries over the release, last writer wins. -/
def inject_throttling_params (updates : Updates) (release : CincinnatiPayload) :
    CincinnatiPayload :=
  updates.rollouts.foldl injectRollout release

/-- The per-release node construction closure inside `Graph::from_metadata`
(graph.rs lines 41-64).  `entry.commits[0]` panics on an empty commit list,
modelled as `none`. -/
def mkNode (updates : Updates) (age_index : Nat) (entry : Release) :
    Option CincinnatiPayload :=
  match entry.commits with
  | [] => none
  | commit :: _ =>
    let base : CincinnatiPayload :=
      { version := entry.version
        payload := commit.checksum
        metadata := [(SCHEME, "checksum"), (AGE_INDEX, toString age_index)] }
    let annotated :=
      match deadend_reason updates base with
      | some reason =>
          { base with
            metadata := mapInsert (mapInsert base.metadata DEADEND "true")
              DEADEND_REASON reason }
      | none => base
    some (inject_throttling_params updates annotated)

/-- `Graph::from_metadata` (graph.rs lines 37-73).  The `Fallible` return
never carries an `Err`; the only failure is the `commits[0]` panic,
modelled as `none`.  The edge list is the hard-coded synthesized triangle
of graph.rs line 69. -/
def from_metadata (releases : List Release) (updates : Updates) : Option Graph :=
  (releases.enum.mapM (fun p => mkNode updates p.1 p.2)).map
    (fun nodes => { nodes := nodes, edges := [(0, 1), (0, 2), (1, 2)] })

/-- The empty updates document, used as a concrete input. -/
def emptyUpdates : Updates := { barriers := [], deadends := [], rollouts := [] }

/-- Bool-valued bounds check for the edge-index invariant: every edge's
endpoints index into `nodes`. -/
def edgesInBounds (g : Graph) : Bool :=
  g.edges.all (fun e => decide (e.1 < g.nodes.length) && decide (e.2 < g.nodes.length))

/-- The input release `{version:"30.1", commits:[{architecture:"aarch64",
checksum:"sha-aarch64"}], metadata:""}`: no commit matches the configured
arch `x86_64`. -/
def archRelease : Release :=
  { commits := [{ architecture := "aarch64", checksum := "sha-aarch64" }],
    version := "30.1", metadata := "" }

/-- A release with an empty commit list. -/
def noCommitRelease : Release :=
  { commits := [], version := "30.2", metadata := "" }

/-- A release with a single `x86_64` commit, for concrete witnesses. -/
def x86Release (v c : String) : Release :=
  { commits := [{ architecture := "x86_64", checksum := c }],
    version := v, metadata := "" }

/-- Three concrete releases. -/
def threeReleases : List Release :=
  [x86Release "31.0" "sha-a", x86Release "31.1" "sha-b", x86Release "31.2" "sha-c"]

/-- The graph the builder produces on `threeReleases`. -/
def threeGraph : Graph :=
  (from_metadata threeReleases emptyUpdates).getD Graph.default

/-- The dead-end index set computed by the identical loops of
graph.rs lines 79-84 and policy.rs lines 9-14: indices of nodes whose
metadata maps the dead-end key to `"true"`. -/
def deadendIndices (nodes : List CincinnatiPayload) : List Nat :=
  (nodes.enum.filter (fun p => mapGet p.2.metadata DEADEND == some "true")).map
    (fun p => p.1)

/-- `Graph::filter_deadends` (graph.rs lines 75-99): drop edges whose
source is a dead-end, via `filter_map`. -/
def Graph.filter_deadends (g : Graph) : Graph :=
  let deadends := deadendIndices g.nodes
  { g with
    edges := g.edges.filterMap
      (fun e => if deadends.contains e.1 then none else some e) }

namespace policy

/-- `policy::filter_deadends` (policy.rs lines 5-23): same dead-end set,
edges dropped via `retain`. -/
def filter_deadends (input : Graph) : Graph :=
  let deadends := deadendIndices input.nodes
  { input with
    edges := input.edges.filter (fun e => !(deadends.contains e.1)) }

end policy

/-- Numeric value of a digit list (used only on all-digit lists). -/
def digitsVal (cs : List Char) : Nat :=
  cs.foldl (fun acc c => acc * 10 + (c.toNat - 48)) 0

/-- A non-empty all-digit character list, or `none`. -/
def decDigits? (cs : List Char) : Option Nat :=
  if (!cs.isEmpty) && cs.all (fun c => c.isDigit) then some (digitsVal cs) else none

/-- Model of Rust `str::parse::<u64>()`: optional leading `+`, decimal
digits, range check. -/
def parseU64 (s : String) : Option Nat :=
  let body := match s.toList with
    | '+' :: rest => rest
    | cs => cs
  match decDigits? body with
  | some v => if v < 2 ^ 64 then some v else none
  | none => none

/-- Model of Rust `str::parse::<i64>()`: optional sign, decimal digits,
range check. -/
def parseI64 (s : String) : Option Int :=
  match s.toList with
  | '-' :: rest =>
    match decDigits? rest with
    | some v => if v ≤ 2 ^ 63 then some (-(v : Int)) else none
    | none => none
  | '+' :: rest =>
    match decDigits? rest with
    | some v => if v < 2 ^ 63 then some (v : Int) else none
    | none => none
  | cs =>
    match decDigits? cs with
    | some v => if v < 2 ^ 63 then some (v : Int) else none
    | none => none

/-- Digits of a decimal literal split into sign, integer part, fraction
part and fraction length, all machine-representable data. -/
def parseDecParts (s : String) : Option (Bool × Nat × Nat × Nat) :=
  let signAndBody : Bool × List Char :=
    match s.toList with
    | '-' :: rest => (true, rest)
    | '+' :: rest => (false, rest)
    | cs => (false, cs)
  let neg := signAndBody.1
  let body := signAndBody.2
  let ip := body.takeWhile (fun c => c.isDigit)
  let rest := body.dropWhile (fun c => c.isDigit)
  match rest with
  | [] => if ip.isEmpty then none else some (neg, digitsVal ip, 0, 0)
  | '.' :: fp =>
    if fp.all (fun c => c.isDigit) && (!ip.isEmpty || !fp.isEmpty) then
      some (neg, digitsVal ip, digitsVal fp, fp.length)
    else none
  | _ => none

/-- The rational denoted by sign/integer/fraction decimal parts. -/
def ratOfParts (neg : Bool) (ip fp fplen : Nat) : ℚ :=
  (if neg then -1 else 1) * ((ip : ℚ) + (fp : ℚ) / (10 : ℚ) ^ fplen)

/-- Model of Rust `str::parse::<f64>()` on plain decimal literals
(optional sign, integer digits, optional fraction), idealised to exact
rationals; exponents and `inf`/`nan` forms are outside the metadata
schema and omitted. -/
def parseF64 (s : String) : Option ℚ :=
  match parseDecParts s with
  | some (neg, ip, fp, fplen) => some (ratOfParts neg ip fp fplen)
  | none => none

/-- Rust `u64::saturating_mul`. -/
def u64SatMul (a b : Nat) : Nat := min (a * b) (2 ^ 64 - 1)

/-- Rust `u64 as i64` (two's-complement reinterpretation). -/
def u64AsI64 (v : Nat) : Int := if v < 2 ^ 63 then (v : Int) else (v : Int) - 2 ^ 64

/-- Rust two's-complement wrap-around of `i64` addition/subtraction
(release-mode overflow semantics). -/
def i64Wrap (x : Int) : Int := (x + 2 ^ 63) % 2 ^ 64 - 2 ^ 63

/-- Rust `i64::saturating_sub`. -/
def i64SatSub (a b : Int) : Int := max (-(2 ^ 63)) (min (2 ^ 63 - 1) (a - b))

/-- The linear-ramp branch of `Graph::throttle_rollouts` (graph.rs
lines 137-144): `start_value + rate * (now - start_epoch)` with
`rate = (1.0 - start_value) / (end.saturating_sub(start_epoch))`. -/
def rampValue (start_value : ℚ) (start_epoch endEpoch now : Int) : ℚ :=
  start_value +
    (1 - start_value) / ((i64SatSub endEpoch start_epoch : Int) : ℚ) *
      ((i64Wrap (now - start_epoch) : Int) : ℚ)

/-- The per-node throttling computation of `Graph::throttle_rollouts`
(graph.rs lines 107-153): `none` when the node carries neither rollout
key (the `continue` branch), otherwise the computed throttling level. -/
def rolloutThrottling (now : Int) (release : CincinnatiPayload) : Option ℚ :=
  if (mapGet release.metadata START_EPOCH).isNone
      && (mapGet release.metadata START_VALUE).isNone then
    none
  else
    let start_epoch : Int :=
      match mapGet release.metadata START_EPOCH with
      | some epoch => (parseI64 epoch).getD 0
      | none => 0
    let start_value : ℚ :=
      match mapGet release.metadata START_VALUE with
      | some val => (parseF64 val).getD 0
      | none => 1
    let minutes : Option Nat :=
      match mapGet release.metadata DURATION with
      | some mins =>
        match parseU64 mins with
        | some m => some (max m 1)
        | none => none
      | none => none
    match minutes with
    | some mins =>
      let endEpoch := i64Wrap (start_epoch + u64AsI64 (u64SatMul mins 60))
      if now < start_epoch then some 0
      else if endEpoch < now then some 1
      else some (rampValue start_value start_epoch endEpoch now)
    | none =>
      if now < start_epoch then some 0 else some start_value

/-- Whether `Graph::throttle_rollouts` inserts the node into `hidden`
(graph.rs line 155): `client_wariness > throttling`. -/
def nodeHidden (client_wariness : ℚ) (now : Int) (release : CincinnatiPayload) : Bool :=
  match rolloutThrottling now release with
  | some throttling => decide (throttling < client_wariness)
  | none => false

/-- The hidden index set of `Graph::throttle_rollouts` (graph.rs
lines 106-158). -/
def hiddenIndices (client_wariness : ℚ) (now : Int) (nodes : List CincinnatiPayload) :
    List Nat :=
  (nodes.enum.filter (fun p => nodeHidden client_wariness now p.2)).map (fun p => p.1)

/-- `Graph::throttle_rollouts` (graph.rs lines 101-173), with the clock
read passed as `now`. -/
def Graph.throttle_rollouts (g : Graph) (client_wariness : ℚ) (now : Int) : Graph :=
  let hidden := hiddenIndices client_wariness now g.nodes
  { g with
    edges := g.edges.filterMap
      (fun e => if hidden.contains e.2 then none else some e) }

/-- Spec-side predicate: the node at index `i` is a dead-end. -/
def deadQ (nodes : List CincinnatiPayload) (i : Nat) : Bool :=
  match nodes[i]? with
  | some n => mapGet n.metadata DEADEND == some "true"
  | none => false

/-- Spec-side predicate: the node at index `i` is hidden for this
wariness at this time. -/
def hiddenQ (client_wariness : ℚ) (now : Int) (nodes : List CincinnatiPayload)
    (i : Nat) : Bool :=
  match nodes[i]? with
  | some n => nodeHidden client_wariness now n
  | none => false

/-- The throttling level exactly as the claim states it: `0.0` before
`start_epoch`, `1.0` after `start_epoch + m*60`, otherwise the linear ramp
`start_value + ((1.0 - start_value) / (end - start_epoch)) * (now - start_epoch)`. -/
def claimThrottling (start_epoch : Int) (start_value : ℚ) (m : Nat) (now : Int) : ℚ :=
  let endEpoch : Int := start_epoch + (m : Int) * 60
  if now < start_epoch then 0
  else if endEpoch < now then 1
  else
    start_value +
      ((1 - start_value) / ((endEpoch - start_epoch : Int) : ℚ)) *
        ((now - start_epoch : Int) : ℚ)

/-- `COMPUTED_MIN` (main.rs line 99): `0.0 + 0.000001`, idealised to the
exact rational `1/1000000`. -/
def COMPUTED_MIN : ℚ := 1 / 1000000

/-- `COMPUTED_MAX` (main.rs line 100). -/
def COMPUTED_MAX : ℚ := 1

/-- `std::u64::MAX as f64` (main.rs line 105): the nearest double to
`2^64 - 1` is exactly `2^64`, so the code divides by `2^64`. -/
def u64MaxAsF64 : ℚ := 2 ^ 64

/-- The wariness derivation of `serve_graph` (main.rs lines 97-108) as a
function of the 64-bit digest produced by hashing the `node_uuid` string
(the std `DefaultHasher` itself is standard-library code, abstracted as
the `digest` input). -/
def wariness (digest : Nat) : ℚ :=
  let scaled : ℚ := (digest : ℚ) / u64MaxAsF64
  min (max scaled COMPUTED_MIN) COMPUTED_MAX

/-- The `GetCachedGraph` message (scraper.rs lines 293-296). -/
structure GetCachedGraph where
  basearch : String
  stream : String
deriving DecidableEq, Repr

/-- `GetCachedGraph::default` (scraper.rs lines 298-305). -/
def GetCachedGraph.default : GetCachedGraph :=
  { basearch := "x86_64", stream := "testing" }

/-- Outcome of an actor message handler: a reply value, an error reply,
or a panic (which produces no reply at all). -/
inductive HandlerOutcome where
  | ok (g : Graph)
  | err (e : String)
  | panicked (msg : String)
deriving DecidableEq, Repr

/-- Whether the outcome is an error reply. -/
def HandlerOutcome.isErr : HandlerOutcome → Bool
  | .err _ => true
  | _ => false

/-- `Handler<GetCachedGraph> for Scraper` (scraper.rs lines 311-319):
two `assert_eq!` checks against the configured `("x86_64", "testing")`
pair — which panic on mismatch — then a clone of the cached graph. -/
def handleGetCachedGraph (cachedGraph : Graph) (msg : GetCachedGraph) : HandlerOutcome :=
  if msg.basearch = "x86_64" then
    if msg.stream = "testing" then HandlerOutcome.ok cachedGraph
    else HandlerOutcome.panicked "assertion failed: msg.stream == testing"
  else HandlerOutcome.panicked "assertion failed: msg.basearch == x86_64"

/-- A node with no rollout metadata. -/
def plainNode : CincinnatiPayload :=
  { version := "31.0", payload := "sha-31",
    metadata := [(SCHEME, "checksum"), (AGE_INDEX, "0")] }

/-- The claim's concrete rollout node: `start_epoch="1000"`,
`start_value="0.0"`, `duration_minutes="10"`. -/
def rolloutNode : CincinnatiPayload :=
  { version := "32.0", payload := "sha-32",
    metadata := [(SCHEME, "checksum"), (AGE_INDEX, "1"),
      (START_EPOCH, "1000"), (START_VALUE, "0.0"), (DURATION, "10")] }

/-- A two-node graph with a single edge into the rollout node. -/
def rolloutGraph : Graph :=
  { nodes := [plainNode, rolloutNode], edges := [(0, 1)] }

/-- A node annotated as a dead-end. -/
def deadNode : CincinnatiPayload :=
  { version := "30.0", payload := "sha-30",
    metadata := [(SCHEME, "checksum"), (AGE_INDEX, "0"),
      (DEADEND, "true"), (DEADEND_REASON, "generic")] }

/-- A graph with one dead-end node, one edge out of it and one into it. -/
def deadGraph : Graph :=
  { nodes := [deadNode, plainNode], edges := [(0, 1), (1, 0)] }

/-- A node carrying only the `start_epoch` rollout key. -/
def epochOnlyNode : CincinnatiPayload :=
  { version := "33.0", payload := "sha-33",
    metadata := [(SCHEME, "checksum"), (AGE_INDEX, "2"), (START_EPOCH, "100")] }

/-- Shared helper: every successful build carries the hard-coded triangle
edge list of graph.rs line 69. -/
theorem from_metadata_edges (releases : List Release) (updates : Updates)
    (g : Graph) (h : from_metadata releases updates = some g) :
    g.edges = [(0, 1), (0, 2), (1, 2)] := by
  unfold from_metadata at h
  rcases Option.map_eq_some'.mp h with ⟨nodes, _, hg⟩
  rw [← hg]

/-- Claim C1 counterexample: the builder on empty inputs returns the
triangle edge list, not the empty edge list. -/
theorem builder_empty_input_edges_cex :
    (from_metadata [] emptyUpdates).map Graph.edges = some [(0, 1), (0, 2), (1, 2)] ∧
      some [((0 : Nat), (1 : Nat)), (0, 2), (1, 2)] ≠ some ([] : List (Nat × Nat)) := by
  constructor
  · rfl
  · decide

/-- Claim C1 amended: every successful build returns the fixed synthesized edge
list `[(0,1),(0,2),(1,2)]`; on empty releases the node list is empty. -/
theorem builder_edges_are_triangle (releases : List Release) (updates : Updates)
    (g : Graph) (h : from_metadata releases updates = some g) :
    g.edges = [(0, 1), (0, 2), (1, 2)] ∧ (releases = [] → g.nodes = []) := by
  refine ⟨from_metadata_edges releases updates g h, ?_⟩
  intro hr
  subst hr
  unfold from_metadata at h
  rcases Option.map_eq_some'.mp h with ⟨nodes, hm, hg⟩
  simp only [List.enum, List.enumFrom, List.mapM_nil] at hm
  rw [← hg]
  injection hm with hm
  rw [← hm]

theorem builder_edges_are_triangle_witness :
    ({ nodes := [], edges := [(0, 1), (0, 2), (1, 2)] } : Graph).edges
      = [(0, 1), (0, 2), (1, 2)] :=
  (builder_edges_are_triangle [] emptyUpdates
    { nodes := [], edges := [(0, 1), (0, 2), (1, 2)] } rfl).1

/-- Claim C2 counterexample: on empty releases the builder still emits the
triangle edges, whose indices are out of bounds for the empty node list. -/
theorem builder_edge_bounds_cex :
    (from_metadata [] emptyUpdates).map edgesInBounds = some false := by
  rfl

/-- Claim C2 amended: every edge of a built graph has distinct endpoints, and
whenever the graph has at least three nodes every edge index is within
bounds. -/
theorem builder_edge_invariant (releases : List Release) (updates : Updates)
    (g : Graph) (h : from_metadata releases updates = some g) :
    (∀ e ∈ g.edges, e.1 ≠ e.2) ∧
      (3 ≤ g.nodes.length →
        ∀ e ∈ g.edges, e.1 < g.nodes.length ∧ e.2 < g.nodes.length) := by
  have he := from_metadata_edges releases updates g h
  rw [he]
  constructor
  · intro e hmem
    simp only [List.mem_cons, List.not_mem_nil, or_false] at hmem
    rcases hmem with h1 | h1 | h1 <;> subst h1 <;> decide
  · intro hlen e hmem
    simp only [List.mem_cons, List.not_mem_nil, or_false] at hmem
    rcases hmem with h1 | h1 | h1 <;> subst h1 <;>
      exact ⟨by simp; omega, by simp; omega⟩

theorem builder_edge_invariant_witness :
    ((0, 1) ∈ threeGraph.edges ∧ (0 : Nat) ≠ (1 : Nat)) ∧
      0 < threeGraph.nodes.length ∧ 1 < threeGraph.nodes.length := by
  have h := builder_edge_invariant threeReleases emptyUpdates threeGraph rfl
  have hmem : ((0 : Nat), (1 : Nat)) ∈ threeGraph.edges := by
    rw [from_metadata_edges threeReleases emptyUpdates threeGraph rfl]
    exact List.mem_cons_self _ _
  have hlen : 3 ≤ threeGraph.nodes.length := by rfl
  exact ⟨⟨hmem, h.1 _ hmem⟩, by
    have := h.2 hlen _ hmem
    omega⟩

/-- Claim C3, code evaluated at the failing input.  The builder ignores the
commit architecture (payload is `commits[0].checksum` even though no commit
matches the configured `x86_64` arch) and panics outright on an empty
commit list; it never produces a `MissingArchCommit` error. -/
theorem builder_ignores_architecture :
    (from_metadata [archRelease] emptyUpdates).map
        (fun g => g.nodes.map (fun n => n.payload)) = some ["sha-aarch64"] ∧
      from_metadata [noCommitRelease] emptyUpdates = none := by
  exact ⟨rfl, rfl⟩

/-- `List.contains` on `Nat` agrees with propositional membership. -/
theorem contains_eq_decide (l : List Nat) (i : Nat) :
    l.contains i = decide (i ∈ l) := by
  simp [List.contains]

/-- A `filter_map` that either keeps or drops each element is a `filter`. -/
theorem filterMap_guard_eq_filter {α : Type} (p : α → Bool) (l : List α) :
    l.filterMap (fun e => if p e then none else some e)
      = l.filter (fun e => !(p e)) := by
  induction l with
  | nil => rfl
  | cons a t ih =>
    by_cases h : p a = true <;>
      simp [List.filterMap_cons, List.filter_cons, h, ih]

/-- Filtering a list twice with the same predicate equals filtering once. -/
theorem filter_idem {α : Type} (p : α → Bool) (l : List α) :
    (l.filter p).filter p = l.filter p := by
  induction l with
  | nil => rfl
  | cons a t ih =>
    by_cases h : p a = true <;> simp [List.filter_cons, h, ih]

/-- Membership in an index set built by enumerate-filter-map, in terms of
the node stored at that index. -/
theorem mem_filteredIndices (q : CincinnatiPayload → Bool)
    (nodes : List CincinnatiPayload) (i : Nat) :
    (i ∈ (nodes.enum.filter (fun p => q p.2)).map (fun p => p.1)) ↔
      ∃ n, nodes[i]? = some n ∧ q n = true := by
  constructor
  · intro hmem
    rcases List.mem_map.mp hmem with ⟨⟨j, a⟩, hf, hj⟩
    rcases List.mem_filter.mp hf with ⟨he, hq⟩
    cases hj
    exact ⟨a, List.mk_mem_enum_iff_getElem?.mp he, hq⟩
  · rintro ⟨n, hg, hq⟩
    exact List.mem_map.mpr ⟨(i, n),
      List.mem_filter.mpr ⟨List.mk_mem_enum_iff_getElem?.mpr hg, hq⟩, rfl⟩

/-- `contains` on an enumerate-filter-map index set, as a per-index test. -/
theorem contains_filteredIndices (q : CincinnatiPayload → Bool)
    (nodes : List CincinnatiPayload) (i : Nat) :
    ((nodes.enum.filter (fun p => q p.2)).map (fun p => p.1)).contains i
      = (match nodes[i]? with | some n => q n | none => false) := by
  rw [contains_eq_decide]
  rcases hg : nodes[i]? with _ | n
  · show _ = false
    apply decide_eq_false
    rw [mem_filteredIndices]
    rintro ⟨n, hn, -⟩
    rw [hg] at hn
    exact Option.noConfusion hn
  · show _ = q n
    rcases hq : q n with _ | _
    · apply decide_eq_false
      rw [mem_filteredIndices]
      rintro ⟨m, hm, hqm⟩
      rw [hg] at hm
      injection hm with hm
      rw [← hm, hq] at hqm
      exact Bool.noConfusion hqm
    · apply decide_eq_true
      rw [mem_filteredIndices]
      exact ⟨n, hg, hq⟩

/-- The dead-end index set tests exactly `deadQ`. -/
theorem deadendIndices_contains (nodes : List CincinnatiPayload) (i : Nat) :
    (deadendIndices nodes).contains i = deadQ nodes i := by
  unfold deadendIndices deadQ
  exact contains_filteredIndices
    (fun n => mapGet n.metadata DEADEND == some "true") nodes i

/-- The hidden index set tests exactly `hiddenQ`. -/
theorem hiddenIndices_contains (w : ℚ) (now : Int)
    (nodes : List CincinnatiPayload) (i : Nat) :
    (hiddenIndices w now nodes).contains i = hiddenQ w now nodes i := by
  unfold hiddenIndices hiddenQ
  exact contains_filteredIndices (fun n => nodeHidden w now n) nodes i

/-- Claim C5: `filter_deadends` keeps the nodes and keeps exactly the edges whose
source is not a dead-end; an edge into a dead-end whose source is clean
survives. -/
theorem filter_deadends_spec (g : Graph) :
    (g.filter_deadends).nodes = g.nodes ∧
      (g.filter_deadends).edges = g.edges.filter (fun e => !(deadQ g.nodes e.1)) ∧
      ∀ f t, (f, t) ∈ g.edges → deadQ g.nodes f = false →
        (f, t) ∈ (g.filter_deadends).edges := by
  have hedges : (g.filter_deadends).edges
      = g.edges.filter (fun e => !(deadQ g.nodes e.1)) := by
    simp only [Graph.filter_deadends]
    rw [filterMap_guard_eq_filter
      (fun e : Nat × Nat => (deadendIndices g.nodes).contains e.1)]
    congr 1
    funext e
    rw [deadendIndices_contains]
  refine ⟨rfl, hedges, ?_⟩
  intro f t hmem hdead
  rw [hedges]
  exact List.mem_filter.mpr ⟨hmem, by rw [hdead]; rfl⟩

theorem filter_deadends_spec_witness :
    (deadGraph.filter_deadends).nodes = deadGraph.nodes ∧
      ((1 : Nat), (0 : Nat)) ∈ (deadGraph.filter_deadends).edges := by
  have h := filter_deadends_spec deadGraph
  exact ⟨h.1, h.2.2 1 0 (by decide) (by decide)⟩

/-- Claim C10: the free function `policy::filter_deadends` and the method
`Graph::filter_deadends` compute equal graphs on every input. -/
theorem policy_filter_deadends_eq (g : Graph) :
    policy.filter_deadends g = g.filter_deadends := by
  simp only [policy.filter_deadends, Graph.filter_deadends]
  congr 1
  rw [filterMap_guard_eq_filter
    (fun e : Nat × Nat => (deadendIndices g.nodes).contains e.1)]

/-- Claim C7: both policy stages are idempotent (the rollout stage evaluated at
one fixed `now`, i.e. within the same second). -/
theorem policy_stages_idempotent (g : Graph) (w : ℚ) (now : Int) :
    (g.filter_deadends).filter_deadends = g.filter_deadends ∧
      (g.throttle_rollouts w now).throttle_rollouts w now
        = g.throttle_rollouts w now := by
  constructor
  · simp only [Graph.filter_deadends]
    congr 1
    rw [filterMap_guard_eq_filter
        (fun e : Nat × Nat => (deadendIndices g.nodes).contains e.1),
      filterMap_guard_eq_filter
        (fun e : Nat × Nat => (deadendIndices g.nodes).contains e.1),
      filter_idem]
  · simp only [Graph.throttle_rollouts]
    congr 1
    rw [filterMap_guard_eq_filter
        (fun e : Nat × Nat => (hiddenIndices w now g.nodes).contains e.2),
      filterMap_guard_eq_filter
        (fun e : Nat × Nat => (hiddenIndices w now g.nodes).contains e.2),
      filter_idem]

/-- `i64Wrap` is the identity on in-range values. -/
theorem i64Wrap_eq_self (x : Int) (h1 : -(2 ^ 63) ≤ x) (h2 : x < 2 ^ 63) :
    i64Wrap x = x := by
  unfold i64Wrap
  rw [Int.emod_eq_of_lt (by omega) (by omega)]
  omega

/-- Shared helper: on a node whose three rollout keys are present and
parse, and whose numbers are small enough that no saturation or wrap-around
fires, the code computes exactly the claim's throttling formula. -/
theorem rolloutThrottling_parsed (n : CincinnatiPayload) (now : Int)
    (se sv d : String) (e : Int) (v : ℚ) (m : Nat)
    (h1 : mapGet n.metadata START_EPOCH = some se) (h2 : parseI64 se = some e)
    (h3 : mapGet n.metadata START_VALUE = some sv) (h4 : parseF64 sv = some v)
    (h5 : mapGet n.metadata DURATION = some d) (h6 : parseU64 d = some m)
    (hm1 : 1 ≤ m) (hm2 : (m : Int) * 60 ≤ 2 ^ 61)
    (he1 : -(2 ^ 61) ≤ e) (he2 : e ≤ 2 ^ 61)
    (hn1 : -(2 ^ 61) ≤ now) (hn2 : now ≤ 2 ^ 61) :
    rolloutThrottling now n = some (claimThrottling e v m now) := by
  have hmul : u64SatMul m 60 = m * 60 := by
    unfold u64SatMul
    omega
  have hmn : m * 60 < 2 ^ 63 := by omega
  have hcast : u64AsI64 (m * 60) = (m : Int) * 60 := by
    unfold u64AsI64
    rw [if_pos hmn]
    push_cast
    ring
  have hwrap : i64Wrap (e + (m : Int) * 60) = e + (m : Int) * 60 :=
    i64Wrap_eq_self _ (by omega) (by omega)
  have hsub : i64SatSub (e + (m : Int) * 60) e = (m : Int) * 60 := by
    unfold i64SatSub
    omega
  have hwrap2 : i64Wrap (now - e) = now - e :=
    i64Wrap_eq_self _ (by omega) (by omega)
  have hmax : max m 1 = m := Nat.max_eq_left hm1
  have hring : (e + (m : Int) * 60) - e = (m : Int) * 60 := by ring
  simp only [rolloutThrottling, h1, h3, h5, h2, h4, h6, Option.isNone_some,
    Bool.false_and, Bool.false_eq_true, if_false, Option.getD_some, hmax,
    hmul, hcast, hwrap, claimThrottling, rampValue, hsub, hwrap2, hring]
  split_ifs <;> rfl

/-- Claim C4: `throttle_rollouts` keeps the nodes and keeps exactly the
edges whose destination is not hidden; a node whose rollout metadata
parses to `start_epoch = e`, `start_value = v`, `duration_minutes = m`
(within machine range) is hidden iff the wariness exceeds the claim's
three-branch linear-ramp throttling; concretely, the S3 node at
`now = 1300` throttles at `0.5`, surviving `w = 0.4` and dying at `w = 0.6`. -/
theorem throttle_rollouts_spec (g : Graph) (w : ℚ) (now : Int) :
    ((g.throttle_rollouts w now).nodes = g.nodes ∧
      (g.throttle_rollouts w now).edges
        = g.edges.filter (fun e => !(hiddenQ w now g.nodes e.2))) ∧
    (∀ i n se sv d e v m, g.nodes[i]? = some n →
      mapGet n.metadata START_EPOCH = some se → parseI64 se = some e →
      mapGet n.metadata START_VALUE = some sv → parseF64 sv = some v →
      mapGet n.metadata DURATION = some d → parseU64 d = some m →
      1 ≤ m → (m : Int) * 60 ≤ 2 ^ 61 →
      -(2 ^ 61) ≤ e → e ≤ 2 ^ 61 → -(2 ^ 61) ≤ now → now ≤ 2 ^ 61 →
      (hiddenQ w now g.nodes i = true ↔ claimThrottling e v m now < w)) ∧
    (rolloutThrottling 1300 rolloutNode = some (1 / 2) ∧
      (rolloutGraph.throttle_rollouts (2 / 5) 1300).edges = [(0, 1)] ∧
      (rolloutGraph.throttle_rollouts (3 / 5) 1300).edges = []) := by
  have hT : rolloutThrottling 1300 rolloutNode = some (1 / 2) := by
    rw [show rolloutThrottling 1300 rolloutNode
      = some (rampValue (ratOfParts false 0 0 1) 1000 1600 1300) from rfl]
    norm_num [rampValue, ratOfParts, i64SatSub, i64Wrap, min_def, max_def]
  have hHp25 : nodeHidden (2 / 5) 1300 plainNode = false := rfl
  have hHp35 : nodeHidden (3 / 5) 1300 plainNode = false := rfl
  have hHr25 : nodeHidden (2 / 5) 1300 rolloutNode = false := by
    simp only [nodeHidden, hT]
    rw [decide_eq_false_iff_not]
    norm_num
  have hHr35 : nodeHidden (3 / 5) 1300 rolloutNode = true := by
    simp only [nodeHidden, hT, decide_eq_true_eq]
    norm_num
  have henum : ([plainNode, rolloutNode] : List CincinnatiPayload).enum
      = [(0, plainNode), (1, rolloutNode)] := rfl
  refine ⟨⟨rfl, ?_⟩, ?_, hT, ?_, ?_⟩
  · simp only [Graph.throttle_rollouts]
    rw [filterMap_guard_eq_filter
      (fun e : Nat × Nat => (hiddenIndices w now g.nodes).contains e.2)]
    congr 1
    funext e
    rw [hiddenIndices_contains]
  · intro i n se sv d e v m hi h1 h2 h3 h4 h5 h6 hm1 hm2 he1 he2 hn1 hn2
    have ht := rolloutThrottling_parsed n now se sv d e v m
      h1 h2 h3 h4 h5 h6 hm1 hm2 he1 he2 hn1 hn2
    simp only [hiddenQ, hi, nodeHidden, ht, decide_eq_true_eq]
  · have hhi : hiddenIndices (2 / 5) 1300 rolloutGraph.nodes = [] := by
      simp only [rolloutGraph, hiddenIndices, henum, List.filter_cons, hHp25, hHr25]
      rfl
    simp only [Graph.throttle_rollouts, hhi]
    rfl
  · have hhi : hiddenIndices (3 / 5) 1300 rolloutGraph.nodes = [1] := by
      simp only [rolloutGraph, hiddenIndices, henum, List.filter_cons, hHp35, hHr35]
      rfl
    simp only [Graph.throttle_rollouts, hhi]
    rfl

theorem throttle_rollouts_spec_witness :
    hiddenQ (3 / 5) 1300 rolloutGraph.nodes 1 = true := by
  have hpf : parseF64 "0.0" = some 0 := by
    rw [show parseF64 "0.0" = some (ratOfParts false 0 0 1) from rfl]
    norm_num [ratOfParts]
  have h := (throttle_rollouts_spec rolloutGraph (3 / 5) 1300).2.1 1 rolloutNode
    "1000" "0.0" "10" 1000 0 10 rfl rfl rfl rfl hpf rfl rfl
    (by norm_num) (by norm_num) (by norm_num) (by norm_num) (by norm_num) (by norm_num)
  refine h.mpr ?_
  norm_num [claimThrottling]

/-- Claim C6: the wariness is the digest scaled by `2^64` (the exact value
of the `u64::MAX as f64` divisor) and clamped by
`max(1e-6, min(1.0, scaled))`; it always lies in `(0, 1]` and is
deterministic. -/
theorem wariness_spec (digest : Nat) (_h : digest < 2 ^ 64) :
    wariness digest = max COMPUTED_MIN (min 1 ((digest : ℚ) / 2 ^ 64)) ∧
      0 < wariness digest ∧ wariness digest ≤ 1 ∧
      wariness digest = wariness digest := by
  have hle : COMPUTED_MIN ≤ (1 : ℚ) := by norm_num [COMPUTED_MIN]
  have hpos : (0 : ℚ) < COMPUTED_MIN := by norm_num [COMPUTED_MIN]
  refine ⟨?_, ?_, ?_, rfl⟩
  · unfold wariness u64MaxAsF64 COMPUTED_MAX
    rw [max_min_distrib_left, max_eq_right hle, max_comm, min_comm]
  · unfold wariness COMPUTED_MAX
    exact lt_min (lt_of_lt_of_le hpos (le_max_right _ _)) one_pos
  · unfold wariness COMPUTED_MAX
    exact min_le_right _ _

theorem wariness_spec_witness :
    wariness 7 = max COMPUTED_MIN (min 1 ((7 : ℚ) / 2 ^ 64)) ∧
      0 < wariness 7 ∧ wariness 7 ≤ 1 :=
  ⟨(wariness_spec 7 (by norm_num)).1, (wariness_spec 7 (by norm_num)).2.1,
    (wariness_spec 7 (by norm_num)).2.2.1⟩

/-- Claim C8 counterexample: a mismatched `basearch` makes the handler
panic on its assertion; it does not return an error reply. -/
theorem get_cached_graph_cex :
    handleGetCachedGraph Graph.default { basearch := "ppc64le", stream := "testing" }
        = HandlerOutcome.panicked "assertion failed: msg.basearch == x86_64" ∧
      (handleGetCachedGraph Graph.default
          { basearch := "ppc64le", stream := "testing" }).isErr = false :=
  ⟨rfl, rfl⟩

/-- Claim C8 amended: on a matching `(basearch, stream)` pair the handler
replies with the cached graph; on any mismatch it panics (assertion
failure) and never produces an error reply. -/
theorem get_cached_graph_spec (cached : Graph) (msg : GetCachedGraph) :
    (msg.basearch = "x86_64" → msg.stream = "testing" →
      handleGetCachedGraph cached msg = HandlerOutcome.ok cached) ∧
    (¬(msg.basearch = "x86_64" ∧ msg.stream = "testing") →
      (handleGetCachedGraph cached msg).isErr = false ∧
        ∃ s, handleGetCachedGraph cached msg = HandlerOutcome.panicked s) := by
  constructor
  · intro h1 h2
    unfold handleGetCachedGraph
    rw [if_pos h1, if_pos h2]
  · intro h
    unfold handleGetCachedGraph
    by_cases h1 : msg.basearch = "x86_64"
    · rw [if_pos h1]
      by_cases h2 : msg.stream = "testing"
      · exact absurd ⟨h1, h2⟩ h
      · rw [if_neg h2]
        exact ⟨rfl, _, rfl⟩
    · rw [if_neg h1]
      exact ⟨rfl, _, rfl⟩

theorem get_cached_graph_spec_witness :
    handleGetCachedGraph Graph.default GetCachedGraph.default
      = HandlerOutcome.ok Graph.default :=
  (get_cached_graph_spec Graph.default GetCachedGraph.default).1 rfl rfl

/-- Claim C9: a node carrying `start_epoch` but no `start_value` key gets
the default `start_value = 1.0` (graph.rs line 124); with no
`duration_minutes` key and `now` at or past the epoch its throttling is
`1.0`, so no wariness `w ≤ 1` hides it. -/
theorem missing_start_value_defaults_one (n : CincinnatiPayload) (w : ℚ)
    (now e : Int) (se : String)
    (h1 : mapGet n.metadata START_VALUE = none)
    (h2 : mapGet n.metadata START_EPOCH = some se)
    (h3 : parseI64 se = some e)
    (h4 : mapGet n.metadata DURATION = none)
    (h5 : e ≤ now) (h6 : w ≤ 1) :
    rolloutThrottling now n = some 1 ∧ nodeHidden w now n = false := by
  have ht : rolloutThrottling now n = some 1 := by
    simp only [rolloutThrottling, h1, h2, h3, h4, Option.isNone_some,
      Option.isNone_none, Bool.false_and, Bool.false_eq_true, if_false,
      Option.getD_some]
    rw [if_neg (by omega)]
  refine ⟨ht, ?_⟩
  simp only [nodeHidden, ht]
  rw [decide_eq_false_iff_not]
  exact not_lt.mpr h6

theorem missing_start_value_defaults_one_witness :
    rolloutThrottling 200 epochOnlyNode = some 1 ∧
      nodeHidden 1 200 epochOnlyNode = false :=
  missing_start_value_defaults_one epochOnlyNode 1 200 100 "100"
    rfl rfl rfl rfl (by norm_num) le_rfl
